import Mathlib

/-!
# Verification of the `wsnet` listener (coder/coder-cli)

Shallow embedding of `src/wsnet/listen.go`: the signaling negotiation loop,
the error-close helper, the data-channel handler, the reconnect supervisor,
and the broker-websocket dialing of the listener.  Definitions are translated
from the Go source; a few identifiers that the listener uses but whose
declarations live outside the provided sources (`turnProxyMagicUsername`,
`controlChannel`, the `getAddress` error taxonomy) are modelled from the
specification and say so in their doc comments.
-/

namespace Wsnet

/-- Codes for `DialChannelResponse` (listen.go line 24). -/
def CodeDialErr : String := "dial_error"

/-- Codes for `DialChannelResponse` (listen.go line 25). -/
def CodePermissionErr : String := "permission_error"

/-- Codes for `DialChannelResponse` (listen.go line 26). -/
def CodeBadAddressErr : String := "bad_address_error"

/-- Modelled from the spec: the reserved data-channel protocol label
`"control"` (§4.5, §6 of the spec); the constant `controlChannel` is used by
`listen.go` but declared in a file outside the provided sources. -/
def controlChannel : String := "control"

/-- Modelled from the spec: the well-known TURN-proxy magic username (§4.2).
The constant `turnProxyMagicUsername` is used by `listen.go` but declared
outside the provided sources; only its role as a fixed sentinel value
matters, so any fixed string serves. -/
def turnProxyMagicUsername : String := "~magicalusername~"

/-- `connectionRetryInterval = time.Second` (listen.go line 29), in
nanoseconds: Go's `time.Second` is `10^9` nanoseconds. -/
def connectionRetryInterval : Nat := 1000000000

/-- `DialChannelResponse` (listen.go lines 34-40): the first frame sent on
every application data channel. `Net`/`Op` are set only when the code is
`CodeDialErr` and the underlying error is a `*net.OpError`. -/
structure DialChannelResponse where
  Code : String := ""
  Err : String := ""
  Net : String := ""
  Op : String := ""
deriving DecidableEq, Repr

/-- A `webrtc.ICEServer` as used by the listener: URL list, username,
credential (spec §3; fields read by `listen.go` lines 192-203). -/
structure ICEServer where
  urls : List String
  username : String := ""
  credential : String := ""
deriving DecidableEq, Repr

/-- The broker signaling message, with fields as read and written by
`listen.go` (`Candidate`, `Offer`, `Servers`, `TURNProxyURL`, `Error`,
`Answer`).  Session descriptions are opaque SDP strings here.  A `none` in
`servers` is Go's nil slice (the `msg.Servers == nil` check at line 188);
an empty `candidate` string means the field is absent (line 170). -/
structure BrokerMessage where
  offer : Option String := none
  servers : Option (List ICEServer) := none
  turnProxyURL : String := ""
  error : String := ""
  answer : Option String := none
  candidate : String := ""
deriving DecidableEq, Repr

/-- The `webrtc.PeerConnectionState` values consulted by the listener. -/
inductive PeerConnectionState where
  | new
  | connecting
  | connected
  | disconnected
  | failed
  | closed
deriving DecidableEq, Repr

/-- The slice of a `webrtc.PeerConnection` that the listener's logic
observes: the remote candidates added so far (`AddICECandidate`) and the
connection state the peer reports when queried. -/
structure Peer where
  candidates : List String
  connState : PeerConnectionState
deriving DecidableEq, Repr

/-! ## Control-channel echo loop (listen.go lines 276-295)

The handler detaches the channel and loops on a 1-byte buffer: each read
fills the buffer with one byte; `io.EOF` returns from the loop; any other
read error `continue`s without writing; a successful read is followed by
writing the buffer (the byte just read) back. -/

/-- One read of the 1-byte buffer in the echo loop: a byte, end-of-stream,
or a non-EOF read error. -/
inductive ReadEvent where
  | byte (b : Nat)
  | eofRead
  | failure (msg : String)
deriving DecidableEq, Repr

/-- The byte-echo loop of the control channel (listen.go lines 284-294),
as the list of bytes written back for a given sequence of read results.
Reads happen one byte at a time (the buffer `d` has length 1); `io.EOF`
ends the loop with no further write; other errors skip the write. -/
def echoLoop : List ReadEvent → List Nat
  | [] => []
  | ReadEvent.byte b :: rest => b :: echoLoop rest
  | ReadEvent.eofRead :: _ => []
  | ReadEvent.failure _ :: rest => echoLoop rest

/-! ## Connection-state callback and listener close -/

/-- The `OnConnectionStateChange` callback that `negotiate` registers
(listen.go lines 221-226): if the new state is `connecting` it returns,
otherwise it closes the signaling stream.  It takes and returns the
session's closer list to record that its body performs no operation on
that list: the returned list is the argument unchanged.  Result:
(signaling stream closed?, closer list afterwards). -/
def onStateChange (pcs : PeerConnectionState) (connClosers : List Nat) :
    Bool × List Nat :=
  if pcs = PeerConnectionState.connecting then (false, connClosers)
  else (true, connClosers)

/-- Go errors distinguished by the supervisor loop in `Listen`
(listen.go lines 57-84): `io.EOF`, `yamux.ErrKeepAliveTimeout`,
`context.Canceled`, `context.DeadlineExceeded`, anything else. -/
inductive GoError where
  | eofErr
  | keepAliveTimeout
  | ctxCanceled
  | ctxDeadlineExceeded
  | other (msg : String)
deriving DecidableEq, Repr

/-- The listener state read by `Close` (listen.go lines 88-96): the stored
terminal error `acceptError`, the registered closers `connClosers` (by id),
and the result the broker websocket's `Close` would return. -/
structure ListenerModel where
  acceptError : Option GoError := none
  connClosers : List Nat := []
  wsCloseErr : Option GoError := none
deriving DecidableEq, Repr

/-- `listener.Close` (listen.go lines 368-377): closes every registered
closer, ignoring their errors, then returns the result of
`l.ws.Close(websocket.StatusNormalClosure, "")`.  Result: (closers that
got closed, the value returned to the caller). -/
def listenerClose (l : ListenerModel) : List Nat × Option GoError :=
  (l.connClosers, l.wsCloseErr)

/-! ## The negotiation loop (listen.go lines 136-272)

`negotiate` decodes `BrokerMessage`s off the signaling stream in a loop.
The embedding runs it over a list of already-decoded messages and records
its observable effects.  The fallible external operations
(`DialICE`, `url.Parse`, `newPeerConnection`, `SetRemoteDescription`,
`CreateAnswer`, `SetLocalDescription`, `conn.Write`, `AddICECandidate`)
are supplied by an environment. -/

/-- Outcomes of the fallible calls `negotiate` makes: `none` is success,
`some e` the error's text.  `newPeerState` is the connection state the
fresh peer reports when later queried; `answerSDP` the local description
installed by `SetLocalDescription`. -/
structure NegEnv where
  dialICE : ICEServer → Option String
  parseURLErr : String → Option String
  newPeerErr : Option String
  newPeerState : PeerConnectionState
  setRemoteErr : Option String
  createAnswerErr : Option String
  setLocalErr : Option String
  answerSDP : String
  writeAnswerErr : Option String
  addCandidateErr : String → Option String

/-- The mutable locals of `negotiate`: the `rtc` peer variable and the
`pendingCandidates` buffer (listen.go lines 140-144). -/
structure NegoState where
  rtc : Option Peer
  pendingCandidates : List String
deriving DecidableEq, Repr

/-- The observable effects of a run of `negotiate`: frames written to the
signaling stream in order, whether the stream was closed, whether
`rtc.Close()` was invoked, how many peers were appended to the session's
`connClosers` list, and the final values of the loop's locals. -/
structure NegoTrace where
  frames : List BrokerMessage
  connClosed : Bool
  rtcClosed : Bool
  registered : Nat
  final : NegoState
deriving DecidableEq, Repr

/-- `closeError` (listen.go lines 147-159): marshal a `BrokerMessage`
whose `Error` is the error's text and write it, close the signaling
stream, and, when a peer exists whose state is not `connected`, close the
peer and nil the `rtc` variable. -/
def closeErrorRun (e : String) (rtc : Option Peer) : NegoTrace :=
  { frames := [{ error := e }]
    connClosed := true
    rtcClosed :=
      match rtc with
      | some p => decide (p.connState ≠ PeerConnectionState.connected)
      | none => false
    registered := 0
    final :=
      { rtc :=
          match rtc with
          | some p =>
            if p.connState = PeerConnectionState.connected then some p else none
          | none => none
        pendingCandidates := [] } }

/-- Prefix extra frames onto a trace (frames written before control
reached the point the trace describes). -/
def NegoTrace.withFrames (fs : List BrokerMessage) (t : NegoTrace) : NegoTrace :=
  { t with frames := fs ++ t.frames }

/-- Account for peers appended to `connClosers` before the point the
trace describes. -/
def NegoTrace.withRegistered (n : Nat) (t : NegoTrace) : NegoTrace :=
  { t with registered := n + t.registered }

/-- How Go's `fmt` verb `%+v` renders the `URLs []string` of an ICE
server inside `fmt.Errorf("dial server %+v: %w", server.URLs, err)`
(listen.go line 200). -/
def urlsRepr (us : List String) : String :=
  "[" ++ String.intercalate " " us ++ "]"

/-- The server-validation loop (listen.go lines 192-203): servers whose
username is the TURN-proxy magic username are skipped; every other server
is passed to `DialICE`, and the first failure aborts.  Returns the
servers actually probed, in order, and the aborting server with its error
when one fails. -/
def validateServers (env : NegEnv) :
    List ICEServer → List ICEServer × Option (ICEServer × String)
  | [] => ([], none)
  | s :: rest =>
    if s.username = turnProxyMagicUsername then validateServers env rest
    else
      match env.dialICE s with
      | some e => ([s], some (s, e))
      | none =>
        let r := validateServers env rest
        (s :: r.1, r.2)

/-- The pending-candidate flush (listen.go lines 262-269): add each
buffered candidate to the peer; the first `AddICECandidate` failure
aborts with `add pending candidate: <err>`, carrying the peer as it is at
that point. -/
def addPendingList (env : NegEnv) : Peer → List String → Except (String × Peer) Peer
  | p, [] => Except.ok p
  | p, c :: cs =>
    match env.addCandidateErr c with
    | some e => Except.error ("add pending candidate: " ++ e, p)
    | none => addPendingList env { p with candidates := p.candidates ++ [c] } cs

/-- Result of the candidate branch (listen.go lines 170-185) for one
message: abort via `closeError`, buffer-and-`continue` (skipping the
offer branch), or fall through to the offer branch. -/
inductive CandOutcome where
  | halt (t : NegoTrace)
  | buffered (st : NegoState)
  | proceed (st : NegoState)
deriving DecidableEq, Repr

/-- Result of the offer branch (listen.go lines 187-270) for one message:
abort via `closeError`, or continue the loop having written some frames
and registered some peers. -/
inductive OfferOutcome where
  | halt (t : NegoTrace)
  | next (frames : List BrokerMessage) (registered : Nat) (st : NegoState)
deriving DecidableEq, Repr

/-- The candidate branch of the loop body (listen.go lines 170-185).
With no peer yet, the candidate is appended to `pendingCandidates` and
the loop `continue`s; with a peer, `AddICECandidate` is attempted and a
failure closes with `accept ice candidate: <err>`. -/
def candidatePart (env : NegEnv) (msg : BrokerMessage) (st : NegoState) :
    CandOutcome :=
  if msg.candidate = "" then CandOutcome.proceed st
  else
    match st.rtc with
    | none =>
      CandOutcome.buffered
        { rtc := none, pendingCandidates := st.pendingCandidates ++ [msg.candidate] }
    | some p =>
      match env.addCandidateErr msg.candidate with
      | some e => CandOutcome.halt (closeErrorRun ("accept ice candidate: " ++ e) (some p))
      | none =>
        CandOutcome.proceed
          { rtc := some { p with candidates := p.candidates ++ [msg.candidate] }
            pendingCandidates := st.pendingCandidates }

/-- The offer branch of the loop body (listen.go lines 187-270): require
`servers`, validate them, parse the TURN proxy URL if given, build the
peer, append it to `connClosers`, apply the offer, create and set the
local answer, write the answer frame, then flush the buffered candidates.
On `newPeerConnection` failure the `rtc` variable holds Go's nil result,
so `closeError` finds no peer to close. -/
def offerPart (env : NegEnv) (msg : BrokerMessage) (st : NegoState) :
    OfferOutcome :=
  match msg.offer with
  | none => OfferOutcome.next [] 0 st
  | some _ =>
    match msg.servers with
    | none => OfferOutcome.halt (closeErrorRun "ICEServers must be provided" st.rtc)
    | some servers =>
      match (validateServers env servers).2 with
      | some se =>
        OfferOutcome.halt
          (closeErrorRun ("dial server " ++ urlsRepr se.1.urls ++ ": " ++ se.2) st.rtc)
      | none =>
        match (if msg.turnProxyURL = "" then none else env.parseURLErr msg.turnProxyURL) with
        | some e => OfferOutcome.halt (closeErrorRun ("parse turn proxy url: " ++ e) st.rtc)
        | none =>
          match env.newPeerErr with
          | some e => OfferOutcome.halt (closeErrorRun e none)
          | none =>
            let p : Peer := { candidates := [], connState := env.newPeerState }
            match env.setRemoteErr with
            | some e =>
              OfferOutcome.halt ((closeErrorRun ("apply offer: " ++ e) (some p)).withRegistered 1)
            | none =>
              match env.createAnswerErr with
              | some e =>
                OfferOutcome.halt ((closeErrorRun ("create answer: " ++ e) (some p)).withRegistered 1)
              | none =>
                match env.setLocalErr with
                | some e =>
                  OfferOutcome.halt ((closeErrorRun ("set local answer: " ++ e) (some p)).withRegistered 1)
                | none =>
                  match env.writeAnswerErr with
                  | some e =>
                    OfferOutcome.halt ((closeErrorRun ("write: " ++ e) (some p)).withRegistered 1)
                  | none =>
                    let ans : BrokerMessage := { answer := some env.answerSDP }
                    match addPendingList env p st.pendingCandidates with
                    | Except.error ep =>
                      OfferOutcome.halt
                        (((closeErrorRun ep.1 (some ep.2)).withFrames [ans]).withRegistered 1)
                    | Except.ok p2 =>
                      OfferOutcome.next [ans] 1 { rtc := some p2, pendingCandidates := [] }

/-- The loop of `negotiate` (listen.go lines 162-271) over a list of
decoded messages: per message, the candidate branch then the offer
branch; running out of messages models the loop blocking on the next
decode with no further effect. -/
def negotiateRun (env : NegEnv) : List BrokerMessage → NegoState → NegoTrace
  | [], st => { frames := [], connClosed := false, rtcClosed := false, registered := 0, final := st }
  | msg :: rest, st =>
    match candidatePart env msg st with
    | CandOutcome.halt t => t
    | CandOutcome.buffered st1 => negotiateRun env rest st1
    | CandOutcome.proceed st1 =>
      match offerPart env msg st1 with
      | OfferOutcome.halt t => t
      | OfferOutcome.next fs n st2 =>
        let t := negotiateRun env rest st2
        { t with frames := fs ++ t.frames, registered := n + t.registered }

/-- The locals of `negotiate` at entry (listen.go lines 137-144):
no peer, empty pending-candidate buffer. -/
def negotiateInit : NegoState := { rtc := none, pendingCandidates := [] }

/-- A signaling message carrying only a candidate. -/
def candMsg (c : String) : BrokerMessage := { candidate := c }

/-- A signaling message carrying an offer and its ICE server list. -/
def offerMsg (ofr : String) (servers : List ICEServer) : BrokerMessage :=
  { offer := some ofr, servers := some servers }

/-! ## Application data channels (listen.go lines 299-363)

For a non-control channel the `OnOpen` handler detaches the channel,
resolves the target address from the offer message and the channel's
protocol label, dials it, and sends a `DialChannelResponse` as first
frame; a non-empty `Err` in that frame closes the channel before any
bridging.  `msg.getAddress` lives outside the provided sources; the
handler only distinguishes, via `errors.As`, whether its error is a
`notPermittedByPolicyErr`, so the embedding takes the already-computed
`getAddress` result as input. -/

/-- Error from `msg.getAddress` (declared outside the provided sources).
Modelled from the spec: a protocol label that fails to parse
(`bad_address_error`), or an address denied by policy — the
`notPermittedByPolicyErr` that listen.go line 327 matches with
`errors.As`. -/
inductive AddrError where
  | parseFailure (msg : String)
  | notPermittedByPolicy (msg : String)
deriving DecidableEq, Repr

/-- `err.Error()` for an address error. -/
def AddrError.text : AddrError → String
  | AddrError.parseFailure m => m
  | AddrError.notPermittedByPolicy m => m

/-- A Go `*net.OpError` as consulted by listen.go lines 339-342: its
`Net` and `Op` fields and its rendered text. -/
structure OpError where
  net : String
  op : String
  text : String
deriving DecidableEq, Repr

/-- Error from `net.Dial`: either a `*net.OpError` (the type assertion at
listen.go line 339 succeeds) or some other error with only a text. -/
inductive NetError where
  | opErr (e : OpError)
  | basic (msg : String)
deriving DecidableEq, Repr

/-- `err.Error()` for a dial error. -/
def NetError.text : NetError → String
  | NetError.opErr e => e.text
  | NetError.basic m => m

/-- The `Net` field copied into the `DialChannelResponse` (listen.go
lines 339-342): the `*net.OpError`'s `Net` when the type assertion
succeeds, empty otherwise. -/
def NetError.netField : NetError → String
  | NetError.opErr e => e.net
  | NetError.basic _ => ""

/-- The `Op` field copied into the `DialChannelResponse` (listen.go
lines 339-342): the `*net.OpError`'s `Op` when the type assertion
succeeds, empty otherwise. -/
def NetError.opField : NetError → String
  | NetError.opErr e => e.op
  | NetError.basic _ => ""

/-- The response code the handler picks for an address error (listen.go
lines 325-330): `bad_address_error`, overridden to `permission_error`
when `errors.As` matches `notPermittedByPolicyErr`. -/
def AddrError.code : AddrError → String
  | AddrError.parseFailure _ => CodeBadAddressErr
  | AddrError.notPermittedByPolicy _ => CodePermissionErr

/-- The inputs one application-channel handler consumes: whether
`dc.Detach` succeeds, the result of `msg.getAddress(dc.Protocol())`, the
result of `net.Dial(network, addr)`, and whether the first-frame write on
the detached stream succeeds. -/
structure ChannelEnv where
  detachOk : Bool
  getAddress : Except AddrError (String × String)
  dialResult : Except NetError Unit
  writeOk : Bool

/-- Observable effects of one application-channel handler run: the
`DialChannelResponse` actually written (if any), whether the channel was
closed by the handshake, whether `net.Dial` was attempted, whether byte
bridging started, and whether the peer connection was closed (the handler
body contains no operation that closes the peer, which this field makes
visible). -/
structure ChannelOutcome where
  sentInit : Option DialChannelResponse
  dcClosed : Bool
  dialAttempted : Bool
  bridged : Bool
  peerClosed : Bool
deriving DecidableEq, Repr

/-- `sendInitMessage` (listen.go lines 306-321): marshal `init` (which
cannot fail for this struct), write it, and if `init.Err` is non-empty
close the data channel.  A failed write sends nothing further and closes
nothing. -/
def sendInitMessage (writeOk : Bool) (init : DialChannelResponse)
    (dialAttempted : Bool) : ChannelOutcome :=
  if writeOk then
    if init.Err = "" then
      { sentInit := some init, dcClosed := false, dialAttempted := dialAttempted
        bridged := false, peerClosed := false }
    else
      { sentInit := some init, dcClosed := true, dialAttempted := dialAttempted
        bridged := false, peerClosed := false }
  else
    { sentInit := none, dcClosed := false, dialAttempted := dialAttempted
      bridged := false, peerClosed := false }

/-- The `OnOpen` body for a non-control data channel (listen.go lines
299-363): on a `getAddress` error reply `bad_address_error`, or
`permission_error` when the error is the policy error, and dial nothing;
otherwise dial, on failure reply `dial_error` copying `Net`/`Op` from a
`*net.OpError`; on success send the zero response and bridge bytes. -/
def handleAppChannel (env : ChannelEnv) : ChannelOutcome :=
  if env.detachOk then
    match env.getAddress with
    | Except.error ae =>
      let code :=
        match ae with
        | AddrError.notPermittedByPolicy _ => CodePermissionErr
        | AddrError.parseFailure _ => CodeBadAddressErr
      sendInitMessage env.writeOk { Code := code, Err := ae.text } false
    | Except.ok _ =>
      match env.dialResult with
      | Except.error ne =>
        let init : DialChannelResponse :=
          match ne with
          | NetError.opErr o =>
            { Code := CodeDialErr, Err := o.text, Net := o.net, Op := o.op }
          | NetError.basic m => { Code := CodeDialErr, Err := m }
        sendInitMessage env.writeOk init true
      | Except.ok _ =>
        let sent := sendInitMessage env.writeOk {} true
        if env.writeOk then { sent with bridged := true } else sent
  else
    { sentInit := none, dcClosed := false, dialAttempted := false
      bridged := false, peerClosed := false }

/-! ## Reconnect supervisor (listen.go lines 57-84)

The goroutine started by `Listen` waits for the accept loop's error; on
`io.EOF` or `yamux.ErrKeepAliveTimeout` it starts a ticker at
`connectionRetryInterval` and, per iteration, either a tick fires and it
redials, or the context is done and the error becomes the context's
error; the inner loop breaks when the error is nil, `context.Canceled`,
or `context.DeadlineExceeded`.  A remaining non-nil error is stored in
`acceptError` and `Close` is called. -/

/-- Does the supervisor redial for this accept-loop error?  The
`errors.Is(err, io.EOF) || errors.Is(err, yamux.ErrKeepAliveTimeout)`
test at listen.go line 60. -/
def isRetryable : GoError → Bool
  | GoError.eofErr => true
  | GoError.keepAliveTimeout => true
  | _ => false

/-- The break test of the retry loop (listen.go line 72): nil error, or
`context.Canceled`, or `context.DeadlineExceeded`. -/
def breaksRetry : Option GoError → Bool
  | none => true
  | some GoError.ctxCanceled => true
  | some GoError.ctxDeadlineExceeded => true
  | some _ => false

/-- One iteration's input of the retry loop (listen.go lines 66-71):
either the ticker fires (a redial happens, with the given result) or the
context is done (with the given context error). -/
inductive RetryEvent where
  | tick (dialResult : Option GoError)
  | ctxDone (e : GoError)
deriving DecidableEq, Repr

/-- The `err` value after one retry-loop iteration. -/
def retryStepErr : RetryEvent → Option GoError
  | RetryEvent.tick r => r
  | RetryEvent.ctxDone e => some e

/-- The retry loop (listen.go lines 64-76): per event, compute the new
`err` (a tick performs one redial) and break when `breaksRetry` holds.
Result: (number of redials performed, `some err` if the loop broke with
that final error, `none` if the given events were exhausted with the loop
still running). -/
def retryLoop : List RetryEvent → Nat × Option (Option GoError)
  | [] => (0, none)
  | ev :: rest =>
    let dials : Nat := match ev with | RetryEvent.tick _ => 1 | RetryEvent.ctxDone _ => 0
    if breaksRetry (retryStepErr ev) then (dials, some (retryStepErr ev))
    else
      let r := retryLoop rest
      (dials + r.1, r.2)

/-- Outcome of one pass of the supervisor body for the first error
received from the accept loop: the listener resumed on a fresh dial, or
it stored a terminal error and called `Close`, or it is still inside the
retry loop having performed the given number of redials. -/
inductive WatcherOutcome where
  | resumed
  | terminated (stored : GoError)
  | retrying (dials : Nat)
deriving DecidableEq, Repr

/-- The supervisor body (listen.go lines 58-83) for the first error off
the accept-loop channel: retryable errors enter the retry loop; any
remaining non-nil error is terminal. -/
def watcherStep (firstErr : GoError) (evs : List RetryEvent) : WatcherOutcome :=
  if isRetryable firstErr then
    match (retryLoop evs).2 with
    | some none => WatcherOutcome.resumed
    | some (some e) => WatcherOutcome.terminated e
    | none => WatcherOutcome.retrying (retryLoop evs).1
  else WatcherOutcome.terminated firstErr

/-- The supervisor's effect on the listener (listen.go lines 78-82): in
the terminal case it stores the error in `acceptError` and calls
`Close`, whose return value nobody reads (`_ = l.Close()`).  Result: the
listener afterwards, and `some r` when `Close` was called and returned
`r`. -/
def watcherApply (l : ListenerModel) (firstErr : GoError) (evs : List RetryEvent) :
    ListenerModel × Option (Option GoError) :=
  match watcherStep firstErr evs with
  | WatcherOutcome.terminated e =>
    let l1 : ListenerModel := { l with acceptError := some e }
    (l1, some (listenerClose l1).2)
  | _ => (l, none)

/-! ## Broker websocket ownership (listen.go lines 98-109)

`listener.dial` first closes the stored websocket, if any, then dials a
new one and stores it on success; on a dial failure it returns leaving
`l.ws` pointing at the (now closed) old socket.  The embedding gives
every socket ever created an index and tracks which are live. -/

/-- The world of broker websockets: `live i` for sockets created so far
(`i < created`), and `cur`, the listener's `l.ws` field, as an index. -/
structure WsWorld where
  live : Nat → Bool
  created : Nat
  cur : Option Nat

/-- The world before `Listen` runs: no sockets, `l.ws == nil`. -/
def initialWsWorld : WsWorld :=
  { live := fun _ => false, created := 0, cur := none }

/-- Close socket `i`. -/
def closeSock (w : WsWorld) (i : Nat) : WsWorld :=
  { w with live := fun j => if j = i then false else w.live j }

/-- The websocket handling of `listener.dial` (listen.go lines 98-109):
close the previously stored socket if there is one; then
`websocket.Dial`; on success store the fresh socket in `l.ws`, on failure
return with `l.ws` unchanged. -/
def dialWs (w : WsWorld) (dialOk : Bool) : WsWorld :=
  let w1 := match w.cur with
    | some i => closeSock w i
    | none => w
  if dialOk then
    { live := fun j => if j = w1.created then true else w1.live j
      created := w1.created + 1
      cur := some w1.created }
  else w1

/-- The ownership invariant of the broker websocket: every live socket is
the one stored in `l.ws`, the stored index is a created socket, and
indices beyond `created` are dead. -/
def WsInv (w : WsWorld) : Prop :=
  (∀ i, w.live i = true → w.cur = some i) ∧
  (∀ i, w.cur = some i → i < w.created) ∧
  (∀ i, w.created ≤ i → w.live i = false)

/-! ## Concrete instances used to evaluate the theorems -/

/-- An environment in which every fallible call of `negotiate`
succeeds. -/
def envOK : NegEnv :=
  { dialICE := fun _ => none
    parseURLErr := fun _ => none
    newPeerErr := none
    newPeerState := PeerConnectionState.new
    setRemoteErr := none
    createAnswerErr := none
    setLocalErr := none
    answerSDP := "answer-sdp"
    writeAnswerErr := none
    addCandidateErr := fun _ => none }

/-- A websocket world holding exactly one live socket, stored in
`l.ws`. -/
def wsExample : WsWorld :=
  { live := fun j => decide (j = 0), created := 1, cur := some 0 }

end Wsnet

namespace Wsnet

/-- A trace of successful 1-byte reads followed by anything after an EOF
echoes exactly the bytes read, in order. -/
theorem echoLoop_echoes_upto_eof (bs : List Nat) (evs : List ReadEvent) :
    echoLoop (bs.map ReadEvent.byte ++ ReadEvent.eofRead :: evs) = bs := by
  induction bs with
  | nil => rfl
  | cons b rest ih => simpa [echoLoop] using ih

/-- C9: on a `"control"`-protocol channel the listener echoes each 1-byte
read back as a 1-byte write — the write sequence equals the read-byte
sequence — and an EOF ends the loop silently: nothing is written at or
after the EOF, and non-EOF read errors skip the write. -/
theorem C9_control_echo :
    (∀ bs : List Nat, echoLoop (bs.map ReadEvent.byte ++ [ReadEvent.eofRead]) = bs) ∧
    (∀ evs : List ReadEvent, echoLoop (ReadEvent.eofRead :: evs) = []) ∧
    (∀ (bs : List Nat) (evs : List ReadEvent),
      echoLoop (bs.map ReadEvent.byte ++ ReadEvent.eofRead :: evs) = bs) ∧
    (∀ (m : String) (evs : List ReadEvent),
      echoLoop (ReadEvent.failure m :: evs) = echoLoop evs) := by
  refine ⟨fun bs => echoLoop_echoes_upto_eof bs [], fun evs => rfl,
    fun bs evs => echoLoop_echoes_upto_eof bs evs, fun m evs => rfl⟩

/-- C4 counterexample: after the peer's connection state reaches `failed`
(and likewise `closed`), the session's closer list still contains the
peer — the state-change callback does not remove it. -/
theorem C4_counterexample :
    (onStateChange PeerConnectionState.failed [7]).2 = [7] ∧
    7 ∈ (onStateChange PeerConnectionState.failed [7]).2 ∧
    (onStateChange PeerConnectionState.closed [7]).2 ≠ ([] : List Nat) := by
  decide

/-- C4 amended: when a peer's connection state leaves `connecting` (in
particular on `failed` or `closed`) the registered callback closes the
signaling stream, but it leaves the session's closer list exactly as it
was: peers are never removed from `connClosers`, and a later `Close()`
re-closes dead peers, ignoring their errors. -/
theorem C4_amended :
    (∀ (pcs : PeerConnectionState) (connClosers : List Nat),
      (onStateChange pcs connClosers).2 = connClosers ∧
      ((onStateChange pcs connClosers).1 = true ↔ pcs ≠ PeerConnectionState.connecting)) ∧
    (∀ l : ListenerModel, (listenerClose l).1 = l.connClosers) := by
  refine ⟨fun pcs connClosers => ⟨?_, ?_⟩, fun l => rfl⟩ <;>
    cases pcs <;> simp [onStateChange]

/-- C3 counterexample: the supervisor runs on a context-canceled error,
stores it in `acceptError`, and itself calls `Close`; that `Close` call
returns `none` (the websocket close result), not the stored terminal
error — and a later `Close()` on the resulting listener state again
returns `none` rather than the stored error. -/
theorem C3_counterexample :
    (watcherApply { acceptError := none, connClosers := [], wsCloseErr := none }
        GoError.ctxCanceled []).1.acceptError = some GoError.ctxCanceled ∧
    (watcherApply { acceptError := none, connClosers := [], wsCloseErr := none }
        GoError.ctxCanceled []).2 = some none ∧
    (listenerClose
        { acceptError := some GoError.ctxCanceled, connClosers := [], wsCloseErr := none }).2
      ≠ some GoError.ctxCanceled := by
  refine ⟨rfl, rfl, by decide⟩

/-- C3 amended: the supervisor does store the terminal error (context
cancellation or a non-retryable accept error) in the listener's
`acceptError` field and then calls `Close()`, but `Close()` returns only
the result of closing the broker websocket; the stored terminal error is
never returned to callers of `Close()`, whatever is stored. -/
theorem C3_amended :
    ∀ (l : ListenerModel) (firstErr : GoError) (evs : List RetryEvent) (e : GoError),
      (listenerClose l).2 = l.wsCloseErr ∧
      (∀ e2 : Option GoError, (listenerClose { l with acceptError := e2 }).2 = (listenerClose l).2) ∧
      (watcherStep firstErr evs = WatcherOutcome.terminated e →
        (watcherApply l firstErr evs).1.acceptError = some e ∧
        (watcherApply l firstErr evs).2 = some l.wsCloseErr) := by
  intro l firstErr evs e
  refine ⟨rfl, fun e2 => rfl, fun h => ?_⟩
  simp [watcherApply, h, listenerClose]

/-- Witness for the amended C3 at a concrete non-retryable accept error:
the supervisor stores `other "session shutdown"` and calls `Close`, which
returns `none`, not the stored error. -/
theorem C3_amended_witness :
    (listenerClose { acceptError := none, connClosers := [3], wsCloseErr := none }).2 = none ∧
    (watcherApply { acceptError := none, connClosers := [3], wsCloseErr := none }
        (GoError.other "session shutdown") []).1.acceptError
      = some (GoError.other "session shutdown") ∧
    (watcherApply { acceptError := none, connClosers := [3], wsCloseErr := none }
        (GoError.other "session shutdown") []).2 = some none := by
  have h := C3_amended { acceptError := none, connClosers := [3], wsCloseErr := none }
    (GoError.other "session shutdown") [] (GoError.other "session shutdown")
  exact ⟨h.1, (h.2.2 rfl).1, (h.2.2 rfl).2⟩

/-- When every non-sentinel server is reachable, validation probes
exactly the non-sentinel servers, in order, and succeeds. -/
theorem validateServers_ok (env : NegEnv) (servers : List ICEServer)
    (h : ∀ s ∈ servers, s.username ≠ turnProxyMagicUsername → env.dialICE s = none) :
    validateServers env servers
      = (servers.filter (fun s => decide (s.username ≠ turnProxyMagicUsername)), none) := by
  induction servers with
  | nil => rfl
  | cons s rest ih =>
    have ih2 := ih (fun t ht hu => h t (List.mem_cons_of_mem _ ht) hu)
    by_cases hm : s.username = turnProxyMagicUsername
    · simp [validateServers, hm, ih2]
    · have hd := h s (List.mem_cons_self _ _) hm
      simp [validateServers, hm, hd, ih2]

/-- Every server that validation probes has a non-sentinel username. -/
theorem validateServers_probed_nonmagic (env : NegEnv) (servers : List ICEServer) :
    ∀ t ∈ (validateServers env servers).1, t.username ≠ turnProxyMagicUsername := by
  induction servers with
  | nil => intro t ht; simp [validateServers] at ht
  | cons s rest ih =>
    intro t ht
    by_cases hm : s.username = turnProxyMagicUsername
    · exact ih t (by simpa [validateServers, hm] using ht)
    · rw [validateServers] at ht
      simp only [hm, if_false] at ht
      cases hds : env.dialICE s with
      | some e =>
        rw [hds] at ht
        simp at ht
        subst ht
        exact hm
      | none =>
        rw [hds] at ht
        simp at ht
        rcases ht with rfl | ht
        · exact hm
        · exact ih t ht

/-- When the servers before `bad` are sentinel or reachable and `bad` is
a non-sentinel server whose probe fails, validation probes the
non-sentinel prefix and then `bad`, and aborts naming `bad`. -/
theorem validateServers_fail (env : NegEnv) (pre post : List ICEServer) (bad : ICEServer)
    (e : String)
    (hpre : ∀ s ∈ pre, s.username = turnProxyMagicUsername ∨ env.dialICE s = none)
    (hbad : bad.username ≠ turnProxyMagicUsername) (he : env.dialICE bad = some e) :
    validateServers env (pre ++ bad :: post)
      = (pre.filter (fun s => decide (s.username ≠ turnProxyMagicUsername)) ++ [bad],
          some (bad, e)) := by
  induction pre with
  | nil => simp [validateServers, hbad, he]
  | cons s rest ih =>
    have ih2 := ih (fun t ht => hpre t (List.mem_cons_of_mem _ ht))
    by_cases hm : s.username = turnProxyMagicUsername
    · simp [validateServers, hm, ih2]
    · rcases hpre s (List.mem_cons_self _ _) with hm2 | hd
      · exact absurd hm2 hm
      · simp [validateServers, hm, hd, ih2]

/-- A loop step on a message with no candidate whose offer branch aborts:
the run is that abort. -/
theorem negotiateRun_offer_halt (env : NegEnv) (msg : BrokerMessage)
    (rest : List BrokerMessage) (st : NegoState) (t : NegoTrace)
    (hc : msg.candidate = "") (h : offerPart env msg st = OfferOutcome.halt t) :
    negotiateRun env (msg :: rest) st = t := by
  rw [negotiateRun]
  simp [candidatePart, hc, h]

/-- A loop step on a message with no candidate whose offer branch
continues: the run prepends the branch's frames and registrations to the
run of the remaining messages. -/
theorem negotiateRun_offer_next (env : NegEnv) (msg : BrokerMessage)
    (rest : List BrokerMessage) (st : NegoState) (fs : List BrokerMessage) (n : Nat)
    (st2 : NegoState) (hc : msg.candidate = "")
    (h : offerPart env msg st = OfferOutcome.next fs n st2) :
    negotiateRun env (msg :: rest) st
      = { negotiateRun env rest st2 with
          frames := fs ++ (negotiateRun env rest st2).frames
          registered := n + (negotiateRun env rest st2).registered } := by
  rw [negotiateRun]
  simp [candidatePart, hc, h]

/-- C2: every negotiation error on the listener goes through
`closeError`: the written frame's `error` field is the error text, the
signaling stream is closed, and the peer is closed exactly when one
exists whose state is not `connected`.  The four listed paths — offer
without `servers`, unreachable ICE server, failure applying the offer,
failure creating the answer — each abort the run this way with the
corresponding error text. -/
theorem C2_negotiation_error_close :
    (∀ (e : String) (rtc : Option Peer),
      (closeErrorRun e rtc).frames = [{ error := e }] ∧
      (closeErrorRun e rtc).connClosed = true ∧
      ((closeErrorRun e rtc).rtcClosed = true ↔
        ∃ p, rtc = some p ∧ p.connState ≠ PeerConnectionState.connected)) ∧
    (∀ (env : NegEnv) (st : NegoState) (rest : List BrokerMessage) (ofr : String),
      negotiateRun env ({ offer := some ofr } :: rest) st
        = closeErrorRun "ICEServers must be provided" st.rtc) ∧
    (∀ (env : NegEnv) (st : NegoState) (rest : List BrokerMessage) (ofr e : String)
        (srv : ICEServer),
      srv.username ≠ turnProxyMagicUsername → env.dialICE srv = some e →
      negotiateRun env (offerMsg ofr [srv] :: rest) st
        = closeErrorRun ("dial server " ++ urlsRepr srv.urls ++ ": " ++ e) st.rtc) ∧
    (∀ (env : NegEnv) (st : NegoState) (rest : List BrokerMessage) (ofr e : String),
      env.newPeerErr = none → env.setRemoteErr = some e →
      negotiateRun env (offerMsg ofr [] :: rest) st
        = (closeErrorRun ("apply offer: " ++ e)
            (some { candidates := [], connState := env.newPeerState })).withRegistered 1) ∧
    (∀ (env : NegEnv) (st : NegoState) (rest : List BrokerMessage) (ofr e : String),
      env.newPeerErr = none → env.setRemoteErr = none → env.createAnswerErr = some e →
      negotiateRun env (offerMsg ofr [] :: rest) st
        = (closeErrorRun ("create answer: " ++ e)
            (some { candidates := [], connState := env.newPeerState })).withRegistered 1) := by
  refine ⟨?_, ?_, ?_, ?_, ?_⟩
  · intro e rtc
    cases rtc with
    | none => simp [closeErrorRun]
    | some p => simp [closeErrorRun]
  · intro env st rest ofr
    exact negotiateRun_offer_halt env _ rest st _ rfl (by simp [offerPart])
  · intro env st rest ofr e srv hu hd
    refine negotiateRun_offer_halt env _ rest st _ rfl ?_
    simp [offerPart, offerMsg, validateServers, hu, hd]
  · intro env st rest ofr e hnp hsr
    refine negotiateRun_offer_halt env _ rest st _ rfl ?_
    simp [offerPart, offerMsg, validateServers, hnp, hsr]
  · intro env st rest ofr e hnp hsr hca
    refine negotiateRun_offer_halt env _ rest st _ rfl ?_
    simp [offerPart, offerMsg, validateServers, hnp, hsr, hca]

/-- Witness for C2 at concrete inputs: an offer without servers, an
unreachable server, an offer-apply failure, an answer-creation failure,
each against the all-succeeding environment suitably broken. -/
theorem C2_negotiation_error_close_witness :
    negotiateRun envOK [{ offer := some "o" }] negotiateInit
      = closeErrorRun "ICEServers must be provided" negotiateInit.rtc ∧
    negotiateRun { envOK with dialICE := fun _ => some "unreachable" }
        [offerMsg "o" [{ urls := ["stun:x:3478"], username := "u" }]] negotiateInit
      = closeErrorRun ("dial server " ++ urlsRepr ["stun:x:3478"] ++ ": " ++ "unreachable")
          negotiateInit.rtc ∧
    negotiateRun { envOK with setRemoteErr := some "bad sdp" } [offerMsg "o" []] negotiateInit
      = (closeErrorRun ("apply offer: " ++ "bad sdp")
          (some { candidates := [], connState := PeerConnectionState.new })).withRegistered 1 ∧
    negotiateRun { envOK with createAnswerErr := some "gen failed" } [offerMsg "o" []]
        negotiateInit
      = (closeErrorRun ("create answer: " ++ "gen failed")
          (some { candidates := [], connState := PeerConnectionState.new })).withRegistered 1 := by
  have h := C2_negotiation_error_close
  refine ⟨h.2.1 envOK negotiateInit [] "o", ?_, ?_, ?_⟩
  · exact h.2.2.1 _ negotiateInit [] "o" "unreachable" _ (by decide) rfl
  · exact h.2.2.2.1 _ negotiateInit [] "o" "bad sdp" rfl rfl
  · exact h.2.2.2.2 _ negotiateInit [] "o" "gen failed" rfl rfl rfl

/-- C7: when the listener processes an offer, servers bearing the
TURN-proxy magic username are skipped by validation and every other
server is probed, in order; if a non-sentinel server's probe fails, the
negotiation aborts with an error frame naming that server's URLs. -/
theorem C7_sentinel_skip_and_probe :
    (∀ (env : NegEnv) (servers : List ICEServer),
      (∀ s ∈ servers, s.username ≠ turnProxyMagicUsername → env.dialICE s = none) →
      validateServers env servers
        = (servers.filter (fun s => decide (s.username ≠ turnProxyMagicUsername)), none)) ∧
    (∀ (env : NegEnv) (servers : List ICEServer) (s : ICEServer),
      s.username = turnProxyMagicUsername → s ∉ (validateServers env servers).1) ∧
    (∀ (env : NegEnv) (pre post : List ICEServer) (bad : ICEServer) (e : String)
        (st : NegoState) (rest : List BrokerMessage) (ofr : String),
      (∀ s ∈ pre, s.username = turnProxyMagicUsername ∨ env.dialICE s = none) →
      bad.username ≠ turnProxyMagicUsername → env.dialICE bad = some e →
      validateServers env (pre ++ bad :: post)
        = (pre.filter (fun s => decide (s.username ≠ turnProxyMagicUsername)) ++ [bad],
            some (bad, e)) ∧
      negotiateRun env (offerMsg ofr (pre ++ bad :: post) :: rest) st
        = closeErrorRun ("dial server " ++ urlsRepr bad.urls ++ ": " ++ e) st.rtc) := by
  refine ⟨validateServers_ok, ?_, ?_⟩
  · intro env servers s hs hmem
    exact validateServers_probed_nonmagic env servers s hmem hs
  · intro env pre post bad e st rest ofr hpre hbad he
    have hv := validateServers_fail env pre post bad e hpre hbad he
    refine ⟨hv, ?_⟩
    refine negotiateRun_offer_halt env _ rest st _ rfl ?_
    simp [offerPart, offerMsg, hv]

/-- Witness for C7: a sentinel server followed by an unreachable normal
server; the sentinel is skipped, the normal one is probed and aborts the
negotiation with its URLs in the error text. -/
theorem C7_sentinel_skip_and_probe_witness :
    validateServers { envOK with dialICE := fun _ => some "refused" }
        ([{ urls := ["turn:proxy"], username := turnProxyMagicUsername }]
          ++ { urls := ["stun:a:3478"], username := "u" } :: [])
      = ([{ urls := ["stun:a:3478"], username := "u" }],
          some ({ urls := ["stun:a:3478"], username := "u" }, "refused")) ∧
    negotiateRun { envOK with dialICE := fun _ => some "refused" }
        (offerMsg "o"
            ([{ urls := ["turn:proxy"], username := turnProxyMagicUsername }]
              ++ { urls := ["stun:a:3478"], username := "u" } :: []) :: [])
        negotiateInit
      = closeErrorRun ("dial server " ++ urlsRepr ["stun:a:3478"] ++ ": " ++ "refused")
          negotiateInit.rtc := by
  have h := (C7_sentinel_skip_and_probe.2.2
    { envOK with dialICE := fun _ => some "refused" }
    [{ urls := ["turn:proxy"], username := turnProxyMagicUsername }] []
    { urls := ["stun:a:3478"], username := "u" } "refused" negotiateInit [] "o"
    (by intro s hs; simp at hs; subst hs; exact Or.inl rfl)
    (by decide) rfl)
  exact ⟨by simpa using h.1, h.2⟩

/-- Candidate frames arriving while no peer exists are appended to the
pending buffer, one per frame, and the loop goes on. -/
theorem negotiateRun_buffers (env : NegEnv) (cands : List String)
    (ms : List BrokerMessage) (pending : List String) (h : ∀ c ∈ cands, c ≠ "") :
    negotiateRun env (cands.map candMsg ++ ms) { rtc := none, pendingCandidates := pending }
      = negotiateRun env ms { rtc := none, pendingCandidates := pending ++ cands } := by
  induction cands generalizing pending with
  | nil => simp
  | cons c cs ih =>
    have hc : c ≠ "" := h c (List.mem_cons_self _ _)
    have ih2 := ih (pending ++ [c]) (fun t ht => h t (List.mem_cons_of_mem _ ht))
    rw [List.map_cons, List.cons_append, negotiateRun]
    simp only [candidatePart, candMsg, if_neg hc]
    rw [ih2]
    simp

/-- Flushing the whole pending buffer succeeds when every
`AddICECandidate` does, and appends the buffered candidates to the peer
in order. -/
theorem addPendingList_ok (env : NegEnv) (cs : List String) (p : Peer)
    (h : ∀ c ∈ cs, env.addCandidateErr c = none) :
    addPendingList env p cs = Except.ok { p with candidates := p.candidates ++ cs } := by
  induction cs generalizing p with
  | nil => simp [addPendingList]
  | cons c cs ih =>
    have hc := h c (List.mem_cons_self _ _)
    have ih2 := ih { p with candidates := p.candidates ++ [c] }
      (fun t ht => h t (List.mem_cons_of_mem _ ht))
    rw [addPendingList, hc, ih2]
    simp

/-- An offer whose servers validate, whose peer builds, and whose
apply/answer/write steps all succeed continues the loop: it writes the
answer frame, registers the peer once, flushes the pending buffer into
the peer, and clears the buffer. -/
theorem offerPart_ok (env : NegEnv) (ofr : String) (servers : List ICEServer)
    (st : NegoState)
    (hs : ∀ s ∈ servers, s.username ≠ turnProxyMagicUsername → env.dialICE s = none)
    (hnp : env.newPeerErr = none) (hsr : env.setRemoteErr = none)
    (hca : env.createAnswerErr = none) (hsl : env.setLocalErr = none)
    (hw : env.writeAnswerErr = none)
    (ha : ∀ c ∈ st.pendingCandidates, env.addCandidateErr c = none) :
    offerPart env (offerMsg ofr servers) st
      = OfferOutcome.next [{ answer := some env.answerSDP }] 1
          { rtc := some { candidates := st.pendingCandidates, connState := env.newPeerState }
            pendingCandidates := [] } := by
  have hv := validateServers_ok env servers hs
  have hp := addPendingList_ok env st.pendingCandidates
    { candidates := [], connState := env.newPeerState } ha
  simp only [offerPart, offerMsg, hv, hnp, hsr, hca, hsl, hw, hp]
  simp

/-- C1: for every negotiation on the listener, candidate frames that
arrive before the peer exists are buffered in the pending list rather
than rejected, and once the offer has been applied every buffered
candidate is added to the peer, so a stream whose candidate frames
precede the offer still negotiates successfully: no error frame is
written, the stream stays open, the answer goes out, and the peer holds
exactly the buffered candidates. -/
theorem C1_candidates_before_offer (env : NegEnv) (cands : List String) (ofr : String)
    (servers : List ICEServer)
    (hc : ∀ c ∈ cands, c ≠ "")
    (hs : ∀ s ∈ servers, s.username ≠ turnProxyMagicUsername → env.dialICE s = none)
    (hnp : env.newPeerErr = none) (hsr : env.setRemoteErr = none)
    (hca : env.createAnswerErr = none) (hsl : env.setLocalErr = none)
    (hw : env.writeAnswerErr = none)
    (ha : ∀ c ∈ cands, env.addCandidateErr c = none) :
    negotiateRun env (cands.map candMsg ++ [offerMsg ofr servers]) negotiateInit
      = { frames := [{ answer := some env.answerSDP }]
          connClosed := false
          rtcClosed := false
          registered := 1
          final := { rtc := some { candidates := cands, connState := env.newPeerState }
                     pendingCandidates := [] } } := by
  rw [show negotiateInit = { rtc := none, pendingCandidates := [] } from rfl,
    negotiateRun_buffers env cands _ [] hc]
  have hok := offerPart_ok env ofr servers { rtc := none, pendingCandidates := [] ++ cands }
    hs hnp hsr hca hsl hw (by simpa using ha)
  rw [negotiateRun_offer_next env _ [] _ _ _ _ rfl hok]
  simp [negotiateRun]

/-- Witness for C1: two candidate frames injected before the offer on
the all-succeeding environment; negotiation succeeds and both candidates
end up on the peer. -/
theorem C1_candidates_before_offer_witness :
    negotiateRun envOK
        (["c1", "c2"].map candMsg
          ++ [offerMsg "o" [{ urls := ["stun:a:3478"], username := "u" }]])
        negotiateInit
      = { frames := [{ answer := some envOK.answerSDP }]
          connClosed := false
          rtcClosed := false
          registered := 1
          final := { rtc := some { candidates := ["c1", "c2"], connState := envOK.newPeerState }
                     pendingCandidates := [] } } := by
  exact C1_candidates_before_offer envOK ["c1", "c2"] "o"
    [{ urls := ["stun:a:3478"], username := "u" }]
    (by decide) (fun s _ _ => rfl) rfl rfl rfl rfl rfl (fun c _ => rfl)

/-- C5: when the target address resolves but the dial fails, the handler
sends a first `DialChannelResponse` with code `dial_error` and the
error's text, copying `Net` and `Op` from the error when it is a
`*net.OpError` (and leaving them empty otherwise), then closes the
channel having bridged nothing. -/
theorem C5_dial_error_response :
    (∀ (env : ChannelEnv) (o : OpError) (na : String × String),
      env.detachOk = true → env.writeOk = true →
      env.getAddress = Except.ok na →
      env.dialResult = Except.error (NetError.opErr o) → o.text ≠ "" →
      handleAppChannel env
        = { sentInit := some { Code := CodeDialErr, Err := o.text, Net := o.net, Op := o.op }
            dcClosed := true
            dialAttempted := true
            bridged := false
            peerClosed := false }) ∧
    (∀ (env : ChannelEnv) (m : String) (na : String × String),
      env.detachOk = true → env.writeOk = true →
      env.getAddress = Except.ok na →
      env.dialResult = Except.error (NetError.basic m) → m ≠ "" →
      handleAppChannel env
        = { sentInit := some { Code := CodeDialErr, Err := m, Net := "", Op := "" }
            dcClosed := true
            dialAttempted := true
            bridged := false
            peerClosed := false }) := by
  constructor
  · intro env o na hd hw ha hdial hne
    simp [handleAppChannel, sendInitMessage, hd, hw, ha, hdial, hne]
  · intro env m na hd hw ha hdial hne
    simp [handleAppChannel, sendInitMessage, hd, hw, ha, hdial, hne]

/-- Witness for C5 at a refused TCP target: the dial error is a
`*net.OpError` with `Net = "tcp"`, `Op = "dial"`, and both fields are
copied into the response. -/
theorem C5_dial_error_response_witness :
    handleAppChannel
        { detachOk := true
          getAddress := Except.ok ("tcp", "127.0.0.1:9")
          dialResult := Except.error (NetError.opErr
            { net := "tcp", op := "dial", text := "dial tcp 127.0.0.1:9: connect: connection refused" })
          writeOk := true }
      = { sentInit := some { Code := CodeDialErr
                             Err := "dial tcp 127.0.0.1:9: connect: connection refused"
                             Net := "tcp"
                             Op := "dial" }
          dcClosed := true
          dialAttempted := true
          bridged := false
          peerClosed := false } := by
  exact C5_dial_error_response.1 _
    { net := "tcp", op := "dial", text := "dial tcp 127.0.0.1:9: connect: connection refused" }
    ("tcp", "127.0.0.1:9") rfl rfl rfl rfl (by decide)

/-- The handshake reply never closes the peer, whatever is sent. -/
theorem sendInitMessage_peerClosed (wk : Bool) (init : DialChannelResponse) (da : Bool) :
    (sendInitMessage wk init da).peerClosed = false := by
  cases wk with
  | false => rfl
  | true =>
    simp only [sendInitMessage, if_true]
    split
    · rfl
    · rfl

/-- C6: a channel whose protocol label fails to parse gets
`bad_address_error`, one denied by policy gets `permission_error`; in
both cases no dial is attempted, only that channel is closed, and the
handler contains no operation closing the peer, so the peer and its
other channels are unaffected. -/
theorem C6_channel_local_errors :
    (∀ (env : ChannelEnv) (m : String),
      env.detachOk = true → env.writeOk = true →
      env.getAddress = Except.error (AddrError.parseFailure m) → m ≠ "" →
      handleAppChannel env
        = { sentInit := some { Code := CodeBadAddressErr, Err := m }
            dcClosed := true
            dialAttempted := false
            bridged := false
            peerClosed := false }) ∧
    (∀ (env : ChannelEnv) (m : String),
      env.detachOk = true → env.writeOk = true →
      env.getAddress = Except.error (AddrError.notPermittedByPolicy m) → m ≠ "" →
      handleAppChannel env
        = { sentInit := some { Code := CodePermissionErr, Err := m }
            dcClosed := true
            dialAttempted := false
            bridged := false
            peerClosed := false }) ∧
    (∀ env : ChannelEnv, (handleAppChannel env).peerClosed = false) := by
  refine ⟨?_, ?_, ?_⟩
  · intro env m hd hw ha hne
    simp [handleAppChannel, sendInitMessage, AddrError.text, hd, hw, ha, hne]
  · intro env m hd hw ha hne
    simp [handleAppChannel, sendInitMessage, AddrError.text, hd, hw, ha, hne]
  · intro env
    by_cases hd : env.detachOk
    · simp only [handleAppChannel, hd, if_true]
      cases env.getAddress with
      | error ae => cases ae <;> exact sendInitMessage_peerClosed env.writeOk _ false
      | ok na =>
        cases env.dialResult with
        | error ne => cases ne <;> exact sendInitMessage_peerClosed env.writeOk _ true
        | ok u =>
          by_cases hw : env.writeOk
          · simp [hw, sendInitMessage]
          · simp [hw, sendInitMessage]
    · simp [handleAppChannel, hd]

/-- Witness for C6: a malformed label and a policy-denied address, both
answered on the channel alone with the respective code and no dial. -/
theorem C6_channel_local_errors_witness :
    handleAppChannel
        { detachOk := true
          getAddress := Except.error (AddrError.parseFailure "address not a host:port")
          dialResult := Except.ok ()
          writeOk := true }
      = { sentInit := some { Code := CodeBadAddressErr, Err := "address not a host:port" }
          dcClosed := true
          dialAttempted := false
          bridged := false
          peerClosed := false } ∧
    handleAppChannel
        { detachOk := true
          getAddress := Except.error (AddrError.notPermittedByPolicy "tcp:10.0.0.1:22 not permitted")
          dialResult := Except.ok ()
          writeOk := true }
      = { sentInit := some { Code := CodePermissionErr, Err := "tcp:10.0.0.1:22 not permitted" }
          dcClosed := true
          dialAttempted := false
          bridged := false
          peerClosed := false } := by
  constructor
  · exact C6_channel_local_errors.1 _ "address not a host:port" rfl rfl rfl (by decide)
  · exact C6_channel_local_errors.2.1 _ "tcp:10.0.0.1:22 not permitted" rfl rfl rfl (by decide)

/-- A run of failing redials performs one dial per tick and keeps
looping. -/
theorem retryLoop_skip_fails (fails : List GoError) (suffix : List RetryEvent)
    (hf : ∀ e ∈ fails, breaksRetry (some e) = false) :
    retryLoop (fails.map (fun e => RetryEvent.tick (some e)) ++ suffix)
      = (fails.length + (retryLoop suffix).1, (retryLoop suffix).2) := by
  induction fails with
  | nil => simp
  | cons e es ih =>
    have he := hf e (List.mem_cons_self _ _)
    have ih2 := ih (fun t ht => hf t (List.mem_cons_of_mem _ ht))
    rw [List.map_cons, List.cons_append, retryLoop]
    simp only [retryStepErr, he, Bool.false_eq_true, if_false, ih2]
    refine Prod.ext ?_ rfl
    simp
    omega

/-- C8: after an accept-loop failure with `io.EOF` or the yamux
keepalive timeout, the supervisor enters the retry loop, whose ticker
fires at `connectionRetryInterval` — one second — performing one redial
per tick, and keeps retrying until a dial succeeds (the listener
resumes) or the context is cancelled (the context error becomes
terminal). -/
theorem C8_reconnect_supervisor (e0 : GoError) (fails : List GoError)
    (h0 : isRetryable e0 = true)
    (hf : ∀ e ∈ fails, breaksRetry (some e) = false) :
    connectionRetryInterval = 1000000000 ∧
    retryLoop (fails.map (fun e => RetryEvent.tick (some e)) ++ [RetryEvent.tick none])
      = (fails.length + 1, some none) ∧
    watcherStep e0 (fails.map (fun e => RetryEvent.tick (some e)) ++ [RetryEvent.tick none])
      = WatcherOutcome.resumed ∧
    watcherStep e0 (fails.map (fun e => RetryEvent.tick (some e)))
      = WatcherOutcome.retrying fails.length ∧
    (∀ ce : GoError, breaksRetry (some ce) = true →
      retryLoop (fails.map (fun e => RetryEvent.tick (some e)) ++ [RetryEvent.ctxDone ce])
        = (fails.length, some (some ce)) ∧
      watcherStep e0 (fails.map (fun e => RetryEvent.tick (some e)) ++ [RetryEvent.ctxDone ce])
        = WatcherOutcome.terminated ce) := by
  have hsucc := retryLoop_skip_fails fails [RetryEvent.tick none] hf
  have hnone := retryLoop_skip_fails fails [] hf
  refine ⟨rfl, ?_, ?_, ?_, ?_⟩
  · rw [hsucc]; rfl
  · rw [watcherStep, if_pos h0, hsucc]; rfl
  · rw [watcherStep, if_pos h0]
    simp only [List.append_nil] at hnone
    rw [hnone]
    simp [retryLoop]
  · intro ce hce
    have hctx := retryLoop_skip_fails fails [RetryEvent.ctxDone ce] hf
    rw [retryLoop, retryStepErr] at hctx
    simp only [hce, if_true] at hctx
    constructor
    · rw [hctx]; rfl
    · rw [watcherStep, if_pos h0, hctx]

/-- Witness for C8: the accept loop dies with `io.EOF`; one redial fails
with a connection-refused error, the next succeeds, and the supervisor
resumes; with a context cancellation instead, the cancellation is the
terminal outcome. -/
theorem C8_reconnect_supervisor_witness :
    connectionRetryInterval = 1000000000 ∧
    watcherStep GoError.eofErr
        ([GoError.other "dial tcp: connection refused"].map (fun e => RetryEvent.tick (some e))
          ++ [RetryEvent.tick none])
      = WatcherOutcome.resumed ∧
    watcherStep GoError.eofErr
        ([GoError.other "dial tcp: connection refused"].map (fun e => RetryEvent.tick (some e))
          ++ [RetryEvent.ctxDone GoError.ctxCanceled])
      = WatcherOutcome.terminated GoError.ctxCanceled := by
  have h := C8_reconnect_supervisor GoError.eofErr
    [GoError.other "dial tcp: connection refused"] rfl (by decide)
  exact ⟨h.1, h.2.2.1, (h.2.2.2.2 GoError.ctxCanceled rfl).2⟩

/-- C10: the listener holds at most one live broker websocket.  The
initial world satisfies the ownership invariant, `listener.dial`
preserves it, the invariant forces at most one live socket, and every
call to `dial` leaves the previously stored socket dead — it is closed
before the new one is dialed and stored. -/
theorem C10_single_live_websocket :
    WsInv initialWsWorld ∧
    (∀ (w : WsWorld) (ok : Bool), WsInv w → WsInv (dialWs w ok)) ∧
    (∀ w : WsWorld, WsInv w → ∀ i j, w.live i = true → w.live j = true → i = j) ∧
    (∀ (w : WsWorld) (ok : Bool) (i : Nat), w.cur = some i → i < w.created →
      (dialWs w ok).live i = false) := by
  refine ⟨?_, ?_, ?_, ?_⟩
  · exact ⟨fun i h => by simp [initialWsWorld] at h,
      fun i h => by simp [initialWsWorld] at h, fun i _ => rfl⟩
  · rintro w ok ⟨h1, h2, h3⟩
    cases hc : w.cur with
    | none =>
      cases ok with
      | true =>
        refine ⟨?_, ?_, ?_⟩
        · intro i hi
          simp only [dialWs, hc, if_true] at hi ⊢
          by_cases hik : i = w.created
          · simp [hik]
          · simp only [hik, if_false] at hi
            have := h1 i hi
            rw [hc] at this
            exact absurd this (by simp)
        · intro i hi
          simp only [dialWs, hc, if_true] at hi
          have : w.created = i := by simpa using hi
          simp [dialWs, hc]
          omega
        · intro i hi
          simp only [dialWs, hc, if_true] at hi ⊢
          have hik : ¬ i = w.created := by omega
          simp only [hik, if_false]
          exact h3 i (by omega)
      | false =>
        have hdw : dialWs w false = w := by simp [dialWs, hc]
        rw [hdw]
        exact ⟨h1, h2, h3⟩
    | some k =>
      cases ok with
      | true =>
        refine ⟨?_, ?_, ?_⟩
        · intro i hi
          simp only [dialWs, hc, closeSock, if_true] at hi ⊢
          by_cases hik : i = w.created
          · simp [hik]
          · simp only [hik, if_false] at hi
            by_cases hk : i = k
            · simp [hk] at hi
            · simp only [hk, if_false] at hi
              have h4 := h1 i hi
              rw [hc] at h4
              exact absurd (Option.some.inj h4).symm hk
        · intro i hi
          simp only [dialWs, hc, closeSock, if_true] at hi
          have : w.created = i := by simpa using hi
          simp [dialWs, hc, closeSock]
          omega
        · intro i hi
          simp only [dialWs, hc, closeSock, if_true] at hi ⊢
          have hik : ¬ i = w.created := by omega
          simp only [hik, if_false]
          by_cases hk : i = k
          · simp [hk]
          · simp only [hk, if_false]
            exact h3 i (by omega)
      | false =>
        have hdw : dialWs w false = closeSock w k := by simp [dialWs, hc]
        rw [hdw]
        refine ⟨?_, ?_, ?_⟩
        · intro i hi
          simp only [closeSock] at hi ⊢
          by_cases hk : i = k
          · simp [hk] at hi
          · simp only [hk, if_false] at hi
            exact h1 i hi
        · intro i hi
          simp only [closeSock] at hi
          exact h2 i hi
        · intro i hi
          simp only [closeSock] at hi ⊢
          by_cases hk : i = k
          · simp [hk]
          · simp only [hk, if_false]
            exact h3 i hi
  · rintro w ⟨h1, _, _⟩ i j hi hj
    have hci := h1 i hi
    have hcj := h1 j hj
    rw [hci] at hcj
    exact Option.some.inj hcj
  · intro w ok i hc hlt
    cases ok with
    | true =>
      simp only [dialWs, hc, closeSock, if_true]
      have hik : ¬ i = w.created := by omega
      simp [hik]
    | false =>
      simp [dialWs, hc, closeSock]

/-- Witness for C10: a world with one live stored socket; a redial
preserves the invariant and the old socket is dead afterwards. -/
theorem C10_single_live_websocket_witness :
    WsInv (dialWs wsExample true) ∧ (dialWs wsExample true).live 0 = false := by
  have h := C10_single_live_websocket
  have hinv : WsInv wsExample := by
    refine ⟨?_, ?_, ?_⟩
    · intro i hi
      have hz : i = 0 := by simpa [wsExample] using hi
      simp [wsExample, hz]
    · intro i hi
      have hz : 0 = i := by simpa [wsExample] using hi
      simp [wsExample]
      omega
    · intro i hi
      simp only [wsExample] at hi ⊢
      simp
      omega
  exact ⟨h.2.1 wsExample true hinv, h.2.2.2 wsExample true 0 rfl (by decide)⟩

end Wsnet
